import Mathlib

/-!
Shallow embedding of the cash-flow / amortization / NPV engine of
`src/app.py` (Buy vs Rent — NPV Classroom Simulator).

Python floats are modelled as exact rationals (ℚ); the formulas under
study are algebraic identities and inequalities over the same
expressions the source evaluates, so ℚ is the faithful idealization.
Python's `ZeroDivisionError` on a zero denominator is modelled with
`Option` where a claim is about that failure mode.
-/

namespace BuyVsRent

/-- The immutable input parameter set: the sidebar inputs of `src/app.py`
(lines 26–52).  All rates are kept in percent, exactly as in the source
(`loan_rate = 8.5` means 8.5 % per year). -/
structure Params where
  price : ℚ
  down_pct : ℚ
  loan_rate : ℚ
  tenure : ℕ
  rent0 : ℚ
  rent_growth : ℚ
  house_growth : ℚ
  inv_return : ℚ
  inflation : ℚ
  disc : ℚ
  exit_year : ℕ
  buy_commission : ℚ
  sell_commission : ℚ
  maintenance_pct : ℚ
  tax_rate : ℚ
  interest_limit : ℚ
  principal_limit : ℚ

/-- `loan_amt = price*(1-down_pct)` (src/app.py line 55). -/
def loan_amt (P : Params) : ℚ := P.price * (1 - P.down_pct)

/-- Monthly loan rate `r = loan_rate/100/12` (line 56). -/
def mrate (P : Params) : ℚ := P.loan_rate / 100 / 12

/-- Number of EMI periods `n = tenure*12` (line 57). -/
def nper (P : Params) : ℕ := P.tenure * 12

/-- The denominator `(1+r)**n - 1` of the EMI formula (line 58). -/
def emiDen (P : Params) : ℚ := (1 + mrate P) ^ nper P - 1

/-- `emi = loan_amt*r*(1+r)**n/((1+r)**n-1)` (line 58), as exact rational
division (the value the source computes whenever the denominator is
nonzero). -/
def emi (P : Params) : ℚ :=
  loan_amt P * mrate P * (1 + mrate P) ^ nper P / emiDen P

/-- Line 58 with Python division semantics made explicit: dividing by a
zero denominator raises `ZeroDivisionError`, modelled as `none`.  The
source has no `r = 0` branch, so the guard here is exactly the zero test
Python itself performs on the denominator. -/
def emiChecked (P : Params) : Option ℚ :=
  if emiDen P = 0 then none else some (emi P)

/-- Running loan balance after `m` iterations of the amortization loop
(lines 63–71): `interest = balance*r`, `principal = emi - interest`,
`balance -= principal`, i.e. `b₀ = loan_amt`, `b₍ₘ₊₁₎ = bₘ*(1+r) - emi`. -/
def balance (P : Params) : ℕ → ℚ
  | 0 => loan_amt P
  | m + 1 => balance P m * (1 + mrate P) - emi P

/-- One row of the amortization table, `[m/12, interest, principal,
balance, equity]` as appended at line 71. -/
structure Row where
  year : ℚ
  interest : ℚ
  principal : ℚ
  balance : ℚ
  equity : ℚ

/-- The row recorded for month `m` (1-based) of the loop at lines 66–71. -/
def row (P : Params) (m : ℕ) : Row :=
  { year := (m : ℚ) / 12
    interest := balance P (m - 1) * mrate P
    principal := emi P - balance P (m - 1) * mrate P
    balance := balance P m
    equity := P.price - balance P m }

/-- The amortization table `sched` (lines 63–74): one row per month
`m = 1 .. exit_year*12`. -/
def schedule (P : Params) : List Row :=
  (List.range (P.exit_year * 12)).map (fun k => row P (k + 1))

/-- `tax_saving(i, p)` (lines 77–80). -/
def tax_saving (P : Params) (i p : ℚ) : ℚ :=
  (min i P.interest_limit + min p P.principal_limit) * P.tax_rate / 100

/-- The pandas row filter `(sched["Year"]>y-1)&(sched["Year"]<=y)`
(line 96), applied to one row. -/
def inYear (y : ℕ) (rw : Row) : Bool :=
  decide ((y : ℚ) - 1 < rw.year) && decide (rw.year ≤ (y : ℚ))

/-- `yearly`: the rows of `sched` selected for aggregation year `y`
(line 96). -/
def yearRows (P : Params) (y : ℕ) : List Row :=
  (schedule P).filter (inYear y)

/-- `interest_y = yearly["Interest"].sum()` (line 97). -/
def interest_y (P : Params) (y : ℕ) : ℚ :=
  ((yearRows P y).map Row.interest).sum

/-- `principal_y = yearly["Principal"].sum()` (line 98). -/
def principal_y (P : Params) (y : ℕ) : ℚ :=
  ((yearRows P y).map Row.principal).sum

/-- The initial buy cash flow `-downpayment - buy_comm` (lines 85–88). -/
def cf0 (P : Params) : ℚ :=
  -(P.price * P.down_pct) - P.price * P.buy_commission / 100

/-- The buy cash flow appended for year `y` (lines 96–103):
`-(emi*12 + maintenance) + tax`. -/
def buyYear (P : Params) (y : ℕ) : ℚ :=
  -(emi P * 12 + P.price * (P.maintenance_pct / 100)) +
    tax_saving P (interest_y P y) (principal_y P y)

/-- The rent cash flow appended for year `y` (lines 93–94):
`-(rent0*(1+rg/100)**y * 12)`. -/
def rentYear (P : Params) (rg : ℚ) (y : ℕ) : ℚ :=
  -(P.rent0 * (1 + rg / 100) ^ y * 12)

/-- `resale = price*(1+hg/100)**yrs * (1-sell_commission/100)`
(lines 105–106). -/
def resale (P : Params) (hg : ℚ) (yrs : ℕ) : ℚ :=
  P.price * (1 + hg / 100) ^ yrs * (1 - P.sell_commission / 100)

/-- `invest = downpayment*(1+inv_return/100)**yrs` (line 109). -/
def invest (P : Params) (yrs : ℕ) : ℚ :=
  P.price * P.down_pct * (1 + P.inv_return / 100) ^ yrs

/-- In-place `cfs[-1] += x` (lines 107 and 110): add `x` to the last
element; on the empty list Python raises, and the claims only use the
nonempty case. -/
def addLast : List ℚ → ℚ → List ℚ
  | [], _ => []
  | [a], x => [a + x]
  | a :: b :: t, x => a :: addLast (b :: t) x

/-- The buy cash-flow series built by `compute_npv` (lines 88–107):
the upfront element, one element per year `1..yrs`, and the resale
added onto the last element. -/
def cf_buy (P : Params) (hg : ℚ) (yrs : ℕ) : List ℚ :=
  addLast (cf0 P :: (List.range yrs).map (fun k => buyYear P (k + 1)))
    (resale P hg yrs)

/-- The rent cash-flow series built by `compute_npv` (lines 89–110):
one element per year `1..yrs` (no upfront element), and the invested
down payment added onto the last element. -/
def cf_rent (P : Params) (rg : ℚ) (yrs : ℕ) : List ℚ :=
  addLast ((List.range yrs).map (fun k => rentYear P rg (k + 1)))
    (invest P yrs)

/-- `real_disc = ((1+disc/100)/(1+inflation/100)-1)*100` (line 112). -/
def real_disc (P : Params) : ℚ :=
  ((1 + P.disc / 100) / (1 + P.inflation / 100) - 1) * 100

/-- The indexed sum of `npv` (lines 114–115), with the enumeration
index starting at `i`: `Σ cf/((1+rate/100)**index)`. -/
def npvFrom (q : ℚ) : ℕ → List ℚ → ℚ
  | _, [] => 0
  | i, c :: cs => c / q ^ i + npvFrom q (i + 1) cs

/-- `npv(rate, cfs) = sum(cf/((1+rate/100)**i) for i,cf in
enumerate(cfs))` (lines 114–115). -/
def npv (rate : ℚ) (cfs : List ℚ) : ℚ :=
  npvFrom (1 + rate / 100) 0 cfs

/-- `compute_npv(hg, rg, yrs)` (lines 83–117): the pair
`(npv(real_disc, cf_buy), npv(real_disc, cf_rent))`. -/
def compute_npv (P : Params) (hg rg : ℚ) (yrs : ℕ) : ℚ × ℚ :=
  (npv (real_disc P) (cf_buy P hg yrs), npv (real_disc P) (cf_rent P rg yrs))

/-- One draw `np.random.normal(mu, sd)` (lines 165–166), realized as
`mu + sd*z` for the standard-normal variate `z` that numpy's global
generator produces; fixing the generator's seed fixes the stream of
variates. -/
def drawGrowth (mu sd z : ℚ) : ℚ := mu + sd * z

/-- The Monte Carlo loop (lines 159–171) as a function of the stream of
standard-normal pairs `zs` delivered by the (seeded) random generator:
returns the list of buy-minus-rent differentials and the win
probability `np.mean(np.array(results) > 0)`, i.e. the fraction of
strictly positive differentials. -/
def runMonteCarlo (P : Params) (sd : ℚ) (zs : List (ℚ × ℚ)) : List ℚ × ℚ :=
  let results := zs.map (fun z =>
    let br := compute_npv P (drawGrowth P.house_growth sd z.1)
      (drawGrowth P.rent_growth sd z.2) P.exit_year
    br.1 - br.2)
  (results,
    ((results.filter (fun d => decide (0 < d))).length : ℚ) /
      (results.length : ℚ))

/-- Concrete parameter set used for witnesses and failing inputs:
price 100, 50 % down (loan 50), loan rate 1200 %/yr (monthly rate 1,
so `1+r = 2`), tenure 2 years (24 periods), exit after 1 year, and all
growth, cost and tax inputs zero. -/
def P₀ : Params :=
  { price := 100, down_pct := 1/2, loan_rate := 1200, tenure := 2
    rent0 := 10, rent_growth := 0, house_growth := 0, inv_return := 0
    inflation := 0, disc := 0, exit_year := 1
    buy_commission := 0, sell_commission := 0, maintenance_pct := 0
    tax_rate := 0, interest_limit := 0, principal_limit := 0 }

/-- `P₀` with a zero loan rate: the failing input for the EMI zero-rate
edge case. -/
def P₄ : Params := { P₀ with loan_rate := 0 }

/-- `P₀` with tenure 1 year but exit after 2 years: the holding period
exceeds the loan tenure. -/
def Pover : Params := { P₀ with tenure := 1, exit_year := 2 }

/-! ## Helper lemmas -/

theorem addLast_append_singleton :
    ∀ (l : List ℚ) (a x : ℚ), addLast (l ++ [a]) x = l ++ [a + x]
  | [], a, x => rfl
  | c :: t, a, x => by
    have h := addLast_append_singleton t a x
    cases t with
    | nil => simp [addLast]
    | cons b t' => simpa [addLast] using h

/-- For `yrs = m+1`, the buy series is the upfront element, the year
flows `1..m`, then the year-`yrs` flow with the resale added. -/
theorem cf_buy_eq (P : Params) (hg : ℚ) (m : ℕ) :
    cf_buy P hg (m + 1) =
      (cf0 P :: (List.range m).map (fun k => buyYear P (k + 1))) ++
        [buyYear P (m + 1) + resale P hg (m + 1)] := by
  unfold cf_buy
  rw [List.range_succ, List.map_append]
  simp only [List.map_cons, List.map_nil]
  have : cf0 P :: ((List.range m).map (fun k => buyYear P (k + 1)) ++
      [buyYear P (m + 1)]) =
      (cf0 P :: (List.range m).map (fun k => buyYear P (k + 1))) ++
        [buyYear P (m + 1)] := by simp
  rw [this, addLast_append_singleton]

/-- For `yrs = m+1`, the rent series is the year flows `1..m` then the
year-`yrs` flow with the invested down payment added. -/
theorem cf_rent_eq (P : Params) (rg : ℚ) (m : ℕ) :
    cf_rent P rg (m + 1) =
      (List.range m).map (fun k => rentYear P rg (k + 1)) ++
        [rentYear P rg (m + 1) + invest P (m + 1)] := by
  unfold cf_rent
  rw [List.range_succ, List.map_append]
  simp only [List.map_cons, List.map_nil]
  rw [addLast_append_singleton]

theorem cf_buy_length (P : Params) (hg : ℚ) (m : ℕ) :
    (cf_buy P hg (m + 1)).length = m + 2 := by
  rw [cf_buy_eq]; simp

theorem cf_rent_length (P : Params) (rg : ℚ) (m : ℕ) :
    (cf_rent P rg (m + 1)).length = m + 1 := by
  rw [cf_rent_eq]; simp

/-- Element `y` of the buy series, for `1 ≤ y ≤ yrs`: the year-`y` flow,
plus the resale exactly when `y` is the final year. -/
theorem cf_buy_getD (P : Params) (hg : ℚ) (yrs y : ℕ)
    (h1 : 1 ≤ y) (h2 : y ≤ yrs) :
    (cf_buy P hg yrs).getD y 0 =
      buyYear P y + (if y = yrs then resale P hg yrs else 0) := by
  obtain ⟨m, rfl⟩ : ∃ m, yrs = m + 1 := ⟨yrs - 1, by omega⟩
  obtain ⟨j, rfl⟩ : ∃ j, y = j + 1 := ⟨y - 1, by omega⟩
  rw [cf_buy_eq, List.getD_eq_getElem?_getD]
  rcases Nat.lt_or_ge j m with hj | hj
  · rw [List.getElem?_append,
      if_pos (by simp only [List.length_cons, List.length_map,
        List.length_range]; omega),
      if_neg (by omega : ¬ j + 1 = m + 1)]
    simp [List.getElem?_range hj]
  · have hjm : j = m := by omega
    subst hjm
    rw [List.getElem?_append_right (by simp)]
    simp

/-- Element `y-1` of the rent series, for `1 ≤ y ≤ yrs`: the year-`y`
flow, plus the invested down payment exactly when `y` is the final
year. -/
theorem cf_rent_getD (P : Params) (rg : ℚ) (yrs y : ℕ)
    (h1 : 1 ≤ y) (h2 : y ≤ yrs) :
    (cf_rent P rg yrs).getD (y - 1) 0 =
      rentYear P rg y + (if y = yrs then invest P yrs else 0) := by
  obtain ⟨m, rfl⟩ : ∃ m, yrs = m + 1 := ⟨yrs - 1, by omega⟩
  obtain ⟨j, rfl⟩ : ∃ j, y = j + 1 := ⟨y - 1, by omega⟩
  rw [cf_rent_eq, List.getD_eq_getElem?_getD]
  simp only [Nat.add_sub_cancel]
  rcases Nat.lt_or_ge j m with hj | hj
  · rw [List.getElem?_append,
      if_pos (by simp only [List.length_map, List.length_range]; omega),
      if_neg (by omega : ¬ j + 1 = m + 1)]
    simp [List.getElem?_range hj]
  · have hjm : j = m := by omega
    subst hjm
    rw [List.getElem?_append_right (by simp)]
    simp

/-- Pulling one factor of `q` out of the discounted sum shifts every
exponent down by one. -/
theorem npvFrom_shift (q : ℚ) (hq : q ≠ 0) :
    ∀ (i : ℕ) (cfs : List ℚ), npvFrom q i cfs = q * npvFrom q (i + 1) cfs
  | _, [] => by simp [npvFrom]
  | i, c :: cs => by
    rw [npvFrom, npvFrom, npvFrom_shift q hq (i + 1) cs, mul_add]
    congr 1
    rw [pow_succ]
    field_simp
    ring

/-- Discounted sums are linear in the cash-flow magnitudes. -/
theorem npvFrom_smul (q k : ℚ) :
    ∀ (i : ℕ) (cfs : List ℚ),
      npvFrom q i (cfs.map (fun c => k * c)) = k * npvFrom q i cfs
  | _, [] => by simp [npvFrom]
  | i, c :: cs => by
    rw [List.map_cons, npvFrom, npvFrom, npvFrom_smul q k (i + 1) cs,
      mul_add, mul_div_assoc]

/-- Closed form of the balance recurrence, for any installment value:
`bₘ = L*(1+r)^m - emi*((1+r)^m - 1)/r`. -/
theorem balance_closed (P : Params) (hr : mrate P ≠ 0) :
    ∀ m : ℕ, balance P m =
      loan_amt P * (1 + mrate P) ^ m -
        emi P * ((1 + mrate P) ^ m - 1) / mrate P
  | 0 => by simp [balance]
  | m + 1 => by
    rw [balance, balance_closed P hr m]
    field_simp
    ring

/-- Substituting the source's EMI formula into the closed form:
`bₘ = L*(q^n - q^m)/(q^n - 1)` with `q = 1+r`. -/
theorem balance_formula (P : Params) (hr : 0 < mrate P) (hn : nper P ≠ 0)
    (m : ℕ) :
    balance P m =
      loan_amt P * ((1 + mrate P) ^ nper P - (1 + mrate P) ^ m) /
        ((1 + mrate P) ^ nper P - 1) := by
  have hq : 1 < 1 + mrate P := by linarith
  have hpow : 1 < (1 + mrate P) ^ nper P := one_lt_pow₀ hq hn
  have hden : (1 + mrate P) ^ nper P - 1 ≠ 0 := by linarith
  rw [balance_closed P (ne_of_gt hr) m, emi, emiDen]
  field_simp
  ring

theorem mrate_P₀ : mrate P₀ = 1 := by norm_num [mrate, P₀]

theorem loan_amt_P₀ : loan_amt P₀ = 50 := by norm_num [loan_amt, P₀]

theorem nper_P₀ : nper P₀ = 24 := rfl

theorem balance_P₀_12 :
    balance P₀ 12 = 50 * (2 ^ 24 - 2 ^ 12) / (2 ^ 24 - 1) := by
  rw [balance_formula P₀ (by rw [mrate_P₀]; norm_num) (by rw [nper_P₀]; omega) 12,
    mrate_P₀, loan_amt_P₀, nper_P₀]
  norm_num

theorem balance_P₀_12_ne : balance P₀ 12 ≠ 0 := by
  rw [balance_P₀_12]
  norm_num

/-! ## Claims -/

/-- Claim C6: for principal > 0, periodic rate r > 0 and a projected
period count `0 < M ≤ n` within the full tenure, the balance sequence of
the amortization recurrence is non-negative up to `M`, monotonically
non-increasing, and its final value matches the closed-form annuity
remaining-balance formula `L*(1+r)^M - emi*((1+r)^M - 1)/r`. -/
theorem amortization_ok (P : Params) (hr : 0 < mrate P)
    (hL : 0 < loan_amt P) (M : ℕ) (hM0 : 0 < M) (hM : M ≤ nper P) :
    (∀ m ≤ M, 0 ≤ balance P m) ∧
    (∀ m < M, balance P (m + 1) ≤ balance P m) ∧
    balance P M = loan_amt P * (1 + mrate P) ^ M -
      emi P * ((1 + mrate P) ^ M - 1) / mrate P := by
  have hn : nper P ≠ 0 := by omega
  have hq : 1 < 1 + mrate P := by linarith
  have hpow : 1 < (1 + mrate P) ^ nper P := one_lt_pow₀ hq hn
  have hden : (0:ℚ) < (1 + mrate P) ^ nper P - 1 := by linarith
  refine ⟨?_, ?_, balance_closed P (ne_of_gt hr) M⟩
  · intro m hm
    rw [balance_formula P hr hn m]
    have hmn : (1 + mrate P) ^ m ≤ (1 + mrate P) ^ nper P :=
      pow_le_pow_right₀ (le_of_lt hq) (le_trans hm hM)
    apply div_nonneg _ (le_of_lt hden)
    exact mul_nonneg (le_of_lt hL) (by linarith)
  · intro m _
    rw [balance_formula P hr hn m, balance_formula P hr hn (m + 1)]
    refine (div_le_div_iff_of_pos_right hden).mpr ?_
    have hstep : (1 + mrate P) ^ m ≤ (1 + mrate P) ^ (m + 1) :=
      pow_le_pow_right₀ (le_of_lt hq) (Nat.le_succ m)
    exact mul_le_mul_of_nonneg_left (by linarith) (le_of_lt hL)

theorem amortization_ok_w : 0 ≤ balance P₀ 12 :=
  (amortization_ok P₀ (by rw [mrate_P₀]; norm_num)
    (by rw [loan_amt_P₀]; norm_num) 12 (by norm_num)
    (by rw [nper_P₀]; omega)).1 12 le_rfl

/-- Claim C9: the code's `npv` is linear in cash-flow magnitude — scaling
every cash flow by `k` scales the result by `k`, for every series and
every discount rate. -/
theorem npv_linear (rate k : ℚ) (cfs : List ℚ) :
    npv rate (cfs.map (fun c => k * c)) = k * npv rate cfs :=
  npvFrom_smul (1 + rate / 100) k 0 cfs

/-- Claim C7: `real_disc` satisfies the defining Fisher identity
`(1 + real/100)*(1 + inflation/100) = 1 + nominal/100` for every
parameter set (whenever `1 + inflation/100 ≠ 0`); equivalently
`real*(1 + inflation/100) = nominal - inflation`, so it equals the
simple difference only after division by the inflation factor, not by
plain subtraction. -/
theorem real_disc_fisher (P : Params) (h : (1:ℚ) + P.inflation / 100 ≠ 0) :
    (1 + real_disc P / 100) * (1 + P.inflation / 100) = 1 + P.disc / 100 ∧
    real_disc P * (1 + P.inflation / 100) = P.disc - P.inflation := by
  have h' : (100:ℚ) + P.inflation ≠ 0 := by
    intro hc
    apply h
    have hi : P.inflation = -100 := by linarith
    rw [hi]
    norm_num
  unfold real_disc
  constructor
  · field_simp
    ring
  · field_simp

theorem real_disc_fisher_w :
    (1 + real_disc P₀ / 100) * (1 + P₀.inflation / 100) =
      1 + P₀.disc / 100 :=
  (real_disc_fisher P₀ (by norm_num [P₀])).1

/-- Claim C5: the Monte Carlo loop is a pure function of the parameter
set, the standard deviation and the stream of standard-normal draws of
numpy's generator (which a fixed seed determines): two runs fed the same
stream return identical differential lists and the identical win
probability, and the outputs have exactly the stated shape. -/
theorem monte_carlo_reproducible (P : Params) (sd : ℚ)
    (zs₁ zs₂ : List (ℚ × ℚ)) (h : zs₁ = zs₂) :
    runMonteCarlo P sd zs₁ = runMonteCarlo P sd zs₂ ∧
    (runMonteCarlo P sd zs₁).1 = zs₁.map (fun z =>
      (compute_npv P (drawGrowth P.house_growth sd z.1)
        (drawGrowth P.rent_growth sd z.2) P.exit_year).1 -
      (compute_npv P (drawGrowth P.house_growth sd z.1)
        (drawGrowth P.rent_growth sd z.2) P.exit_year).2) ∧
    (runMonteCarlo P sd zs₁).2 =
      (((runMonteCarlo P sd zs₁).1.filter
          (fun d => decide (0 < d))).length : ℚ) /
        ((runMonteCarlo P sd zs₁).1.length : ℚ) := by
  subst h
  exact ⟨rfl, rfl, rfl⟩

theorem monte_carlo_reproducible_w :
    runMonteCarlo P₀ 2 [(0, 0)] = runMonteCarlo P₀ 2 [(0, 0)] :=
  (monte_carlo_reproducible P₀ 2 [(0, 0)] [(0, 0)] rfl).1

/-- Claim C10: the amortization loop records exactly `exit_year*12` rows,
every row's interest and principal parts add up to the same fixed EMI,
every year `1..yrs` of the buy series is charged `-(emi*12 +
maintenance) + tax` (plus the resale only in the final year), and when
the holding period exceeds the loan tenure the balance after
`12*yrs` months is strictly negative — no branch stops payments or
clamps the balance. -/
theorem schedule_overrun (P : Params) (hg : ℚ) (yrs : ℕ)
    (hr : 0 < mrate P) (hL : 0 < loan_amt P) (hn : 0 < nper P)
    (_hy : 1 ≤ yrs) :
    (schedule P).length = P.exit_year * 12 ∧
    (∀ rw ∈ schedule P, rw.interest + rw.principal = emi P) ∧
    (∀ y, 1 ≤ y → y ≤ yrs →
      (cf_buy P hg yrs).getD y 0 =
        -(emi P * 12 + P.price * (P.maintenance_pct / 100)) +
          tax_saving P (interest_y P y) (principal_y P y) +
          (if y = yrs then resale P hg yrs else 0)) ∧
    (nper P < 12 * yrs → balance P (12 * yrs) < 0) := by
  refine ⟨by simp [schedule], ?_, ?_, ?_⟩
  · intro rw hrw
    simp only [schedule, List.mem_map, List.mem_range] at hrw
    obtain ⟨k, _, rfl⟩ := hrw
    simp only [row]
    ring
  · intro y h1 h2
    rw [cf_buy_getD P hg yrs y h1 h2]
    rfl
  · intro hover
    rw [balance_formula P hr (by omega) (12 * yrs)]
    have hq : 1 < 1 + mrate P := by linarith
    have hpow : (1 + mrate P) ^ nper P < (1 + mrate P) ^ (12 * yrs) :=
      pow_lt_pow_right₀ hq hover
    have hpow1 : 1 < (1 + mrate P) ^ nper P := one_lt_pow₀ hq (by omega)
    apply div_neg_of_neg_of_pos
    · exact mul_neg_of_pos_of_neg hL (by linarith)
    · linarith

theorem schedule_overrun_w : balance Pover (12 * 2) < 0 :=
  (schedule_overrun Pover 0 2 (by norm_num [mrate, Pover, P₀])
    (by norm_num [loan_amt, Pover, P₀]) (by norm_num [nper, Pover, P₀])
    (by norm_num)).2.2.2 (by norm_num [nper, Pover, P₀])

/-- The pandas filter of line 96, applied to the row of month `m`,
selects exactly the months `12*j < m ≤ 12*(j+1)` for window `y = j+1`. -/
theorem inYear_iff (P : Params) (j m : ℕ) :
    inYear (j + 1) (row P m) = true ↔ 12 * j < m ∧ m ≤ 12 * (j + 1) := by
  simp only [inYear, row, Bool.and_eq_true, decide_eq_true_eq]
  have h12 : (0:ℚ) < 12 := by norm_num
  rw [lt_div_iff₀ h12, div_le_iff₀ h12]
  constructor
  · rintro ⟨ha, hb⟩
    constructor
    · have : ((12 * j : ℕ) : ℚ) < (m : ℚ) := by push_cast at ha ⊢; linarith
      exact_mod_cast this
    · have : ((m : ℕ) : ℚ) ≤ ((12 * (j + 1) : ℕ) : ℚ) := by
        push_cast at hb ⊢; linarith
      exact_mod_cast this
  · rintro ⟨ha, hb⟩
    constructor
    · have h : ((12 * j : ℕ) : ℚ) < ((m : ℕ) : ℚ) := by exact_mod_cast ha
      push_cast at h ⊢; linarith
    · have h : ((m : ℕ) : ℚ) ≤ ((12 * (j + 1) : ℕ) : ℚ) := by exact_mod_cast hb
      push_cast at h ⊢; linarith

/-- Claim C8: every month `1 ≤ m ≤ 12*yrs` of the holding period is
selected by the year-window filter of exactly one aggregation year
`y ∈ 1..yrs` (no overlap, no gap), and the relief for a window equals
`(min(interest, interest_cap) + min(principal, principal_cap)) *
tax_rate/100`. -/
theorem tax_windows_partition (P : Params) (yrs m : ℕ)
    (hm1 : 1 ≤ m) (hm2 : m ≤ 12 * yrs) :
    (∃! y : ℕ, 1 ≤ y ∧ y ≤ yrs ∧ inYear y (row P m) = true) ∧
    (∀ i p : ℚ, tax_saving P i p =
      (min i P.interest_limit + min p P.principal_limit) *
        P.tax_rate / 100) := by
  refine ⟨⟨(m + 11) / 12, ⟨by omega, by omega, ?_⟩, ?_⟩, fun i p => rfl⟩
  · have h : (m + 11) / 12 = ((m + 11) / 12 - 1) + 1 := by omega
    rw [h, inYear_iff]
    omega
  · rintro y' ⟨hy1, hy2, hy3⟩
    obtain ⟨j, rfl⟩ : ∃ j, y' = j + 1 := ⟨y' - 1, by omega⟩
    rw [inYear_iff] at hy3
    omega

theorem tax_windows_partition_w :
    tax_saving P₀ 3 4 =
      (min 3 P₀.interest_limit + min 4 P₀.principal_limit) *
        P₀.tax_rate / 100 :=
  (tax_windows_partition P₀ 1 5 (by norm_num) (by norm_num)).2 3 4

/-- Claim C3: in `compute_npv` the year-`y` rent flow sits at list index
`y-1` while the year-`y` buy flow sits at index `y`, and `npv` divides
index `i` by `(1+rate/100)^i`; hence the rent series' NPV carries one
factor `(1+rate/100)` more than the buy-aligned discounting
`npvFrom _ 1` of the very same flows — the first rent year is divided by
`(1+rate/100)^0 = 1`, i.e. not discounted at all, and for any nonzero
rate the rent NPV is overstated by exactly one period of discounting. -/
theorem rent_discount_lags_buy (P : Params) (hg rg rate : ℚ) (yrs y : ℕ)
    (h1 : 1 ≤ y) (h2 : y ≤ yrs) (hq : (1:ℚ) + rate / 100 ≠ 0) :
    (cf_rent P rg yrs).getD (y - 1) 0 =
      rentYear P rg y + (if y = yrs then invest P yrs else 0) ∧
    (cf_buy P hg yrs).getD y 0 =
      buyYear P y + (if y = yrs then resale P hg yrs else 0) ∧
    npv rate (cf_rent P rg yrs) =
      (1 + rate / 100) * npvFrom (1 + rate / 100) 1 (cf_rent P rg yrs) :=
  ⟨cf_rent_getD P rg yrs y h1 h2, cf_buy_getD P hg yrs y h1 h2,
    npvFrom_shift (1 + rate / 100) hq 0 (cf_rent P rg yrs)⟩

theorem rent_discount_lags_buy_w :
    npv 100 (cf_rent P₀ 0 1) =
      (1 + 100 / 100) * npvFrom (1 + 100 / 100) 1 (cf_rent P₀ 0 1) :=
  (rent_discount_lags_buy P₀ 0 0 100 1 1 le_rfl le_rfl (by norm_num)).2.2

/-- Claim C1 (evidence of the code bug): at the failing input `P₀`
(exit after 1 year of a 2-year loan) the final buy cash flow is the
year flow plus the full resale — the remaining loan balance, which is
nonzero at the end of the holding period, is not subtracted, so the
code's value differs from the one the claim prescribes. -/
theorem resale_omits_loan_balance :
    (cf_buy P₀ 0 1).getLast? = some (buyYear P₀ 1 + resale P₀ 0 1) ∧
    balance P₀ 12 ≠ 0 ∧
    buyYear P₀ 1 + resale P₀ 0 1 ≠
      buyYear P₀ 1 + (resale P₀ 0 1 - balance P₀ 12) := by
  refine ⟨?_, balance_P₀_12_ne, ?_⟩
  · have h := cf_buy_eq P₀ 0 0
    norm_num at h
    rw [h]
    rfl
  · intro hcontra
    exact balance_P₀_12_ne (by linarith)

/-- Claim C2 (evidence of the code bug): at the failing input `P₀` with
`yrs = 1` the buy series has 2 elements while the rent series has only
1, and the single year-1 rent flow enters the NPV undiscounted (divided
by `(1+rate/100)^0 = 1`) even at a 100 % discount rate, while the
year-1 buy flow sits at index 1. -/
theorem series_length_mismatch :
    (cf_buy P₀ 0 1).length = 2 ∧ (cf_rent P₀ 0 1).length = 1 ∧
    npv 100 (cf_rent P₀ 0 1) = rentYear P₀ 0 1 + invest P₀ 1 := by
  have hb := cf_buy_length P₀ 0 0
  have hr := cf_rent_length P₀ 0 0
  have he := cf_rent_eq P₀ 0 0
  norm_num at hb hr he
  refine ⟨hb, hr, ?_⟩
  rw [he]
  simp [npv, npvFrom]

/-- Claim C4 (evidence of the code bug): at the failing input `P₄`
(zero loan rate) the EMI expression's denominator `(1+r)^n - 1` is
exactly zero, so line 58 divides by zero instead of returning `P/n` —
there is no separate `r = 0` branch in the code. -/
theorem emi_zero_rate_unguarded :
    emiChecked P₄ = none ∧ emiDen P₄ = 0 := by
  have h : emiDen P₄ = 0 := by
    norm_num [emiDen, mrate, nper, P₄, P₀]
  exact ⟨by rw [emiChecked, if_pos h], h⟩

end BuyVsRent
